import Mathlib

/-
Verification of the itv-stream freshness-aware cache and refresh subsystem.

Shallow embedding of the repository's Python modules:
 - `cache.py`     : expiry extraction, channel cache set/get;
 - `change_log.py`: bounded change ledger and token-refresh analytics;
 - `main.py`      : the per-cycle auto-refresh loop;
 - `dashboard.py` : per-channel link history tracker.

Time is passed explicitly (each wall-clock read of the Python code becomes a
parameter), URLs and channels are `String`s, timestamps are integer seconds
since the epoch, and fractional hour statistics are rationals.
-/

set_option autoImplicit false

namespace ITVStream

/-! Section: cache.py — expiry extraction

`extract_expiry` runs `re.search(r"[?&]exp=(\d+)", url)`: the leftmost
occurrence of `?` or `&` followed by the literal `exp=` and at least one
digit; the capture group is the maximal digit run at that position.  If no
such occurrence exists the result defaults to `now + 3600`. -/

/-- The maximal run of digits at the head of the list (the greedy `\d+`). -/
def leadingDigits : List Char → List Char
  | [] => []
  | c :: cs => if c.isDigit then c :: leadingDigits cs else []

/-- Numeric value of a digit string, most significant digit first
(Python `int` on the captured group). -/
def digitsVal (l : List Char) : Nat :=
  l.foldl (fun a c => a * 10 + (c.toNat - 48)) 0

/-- One attempted regex match at the current position: succeeds when the text
starts with `?exp=` or `&exp=` followed by a digit, and returns the text
starting at that first digit. -/
def headExpMatch : List Char → Option (List Char)
  | s :: 'e' :: 'x' :: 'p' :: '=' :: d :: rest =>
    if (s = '?' ∨ s = '&') ∧ d.isDigit then some (d :: rest) else none
  | _ => none

/-- `re.search`: try each position left to right; on the first successful
match return the value of the captured digit run. -/
def findExp : List Char → Option Nat
  | [] => none
  | c :: cs =>
    match headExpMatch (c :: cs) with
    | some t => some (digitsVal (leadingDigits t))
    | none => findExp cs

/-- `cache.extract_expiry(url)`; `now` is the wall-clock read used by the
default branch. -/
def extract_expiry (url : String) (now : Int) : Int :=
  match findExp url.toList with
  | some n => (n : Int)
  | none => now + 3600

/-- Spec-side reading used only to state claim C6: the full value of the
first `exp` query parameter (every character up to the next `&` or `#` or
the end of the locator), with no requirement that it be numeric.  This is
deliberately NOT the source's regex; it is compared against it. -/
def expParamValue : List Char → Option (List Char)
  | [] => none
  | c :: cs =>
    if c = '?' ∨ c = '&' then
      match cs with
      | 'e' :: 'x' :: 'p' :: '=' :: rest =>
        some (rest.takeWhile (fun d => !(d == '&' || d == '#')))
      | _ => expParamValue cs
    else expParamValue cs

/-! Section: cache.py — channel cache -/

/-- One value of the `cache_store` dict: `{"url": ..., "expiry": ...,
"validity": ..., "requests": 0}`. -/
structure CacheEntry where
  url : String
  expiry : Int
  validity : Int
  requests : Nat
  deriving DecidableEq

/-- The `cache_store` module-level dict, as a total map into `Option`. -/
def CacheState : Type := String → Option CacheEntry

/-- `cache.set_cached_url(channel, url)`.  The code reads the clock twice:
once inside `extract_expiry` (`nowX`, used only when the locator carries no
expiry hint) and once for `validity = expiry - now` (`now`). -/
def set_cached_url (s : CacheState) (channel url : String) (nowX now : Int) : CacheState :=
  let expiry := extract_expiry url nowX
  fun c =>
    if c = channel then
      some { url := url, expiry := expiry, validity := expiry - now, requests := 0 }
    else s c

/-- `cache.get_cached_url(channel)`: on a hit (`entry["expiry"] > now`) the
entry's request counter is incremented in place and the URL returned; on a
miss the state is untouched and `None` returned.  The result is the returned
value paired with the state after the call. -/
def get_cached_url (s : CacheState) (channel : String) (now : Int) :
    Option String × CacheState :=
  match s channel with
  | some entry =>
    if now < entry.expiry then
      (some entry.url,
       fun c =>
         if c = channel then some { entry with requests := entry.requests + 1 } else s c)
    else (none, s)
  | none => (none, s)

/-- Modelled from the spec: `main.reload_token` executes
`from cache import CACHE; CACHE.clear()`, but `cache.py` defines no name
`CACHE` (the store is `cache_store`), so at runtime the import raises
`ImportError` and nothing is cleared.  This definition models the intended
`clear()` operation of the spec — dropping every entry of the store — which
the shipped code fails to reach. -/
def cache_clear (_s : CacheState) : CacheState := fun _ => none

/-! Section: change_log.py — the bounded ledger -/

/-- One ledger entry; the ISO-8601 timestamp string is embedded as integer
seconds since the epoch, and the optional `details` dict as an opaque
optional payload string. -/
structure LedgerEntry where
  timestamp : Int
  event_type : String
  channel : String
  details : Option String
  deriving DecidableEq

/-- `change_log.log_change`: append the entry, then `logs = logs[-1000:]`
whenever the list exceeds 1000 entries. -/
def log_change (logs : List LedgerEntry) (entry : LedgerEntry) : List LedgerEntry :=
  let logs' := logs ++ [entry]
  if 1000 < logs'.length then logs'.drop (logs'.length - 1000) else logs'

/-- `change_log.get_logs(limit)` = `logs[-limit:]`.  Python slice semantics:
`logs[-0:]` is the whole list, hence the guard at `limit = 0`. -/
def get_logs (logs : List LedgerEntry) (limit : Nat) : List LedgerEntry :=
  if limit = 0 then logs else logs.drop (logs.length - limit)

/-- The adjacent-pair gaps, in hours, of a chronological event list:
`(curr - prev).total_seconds() / 3600` for `i` in `1 .. len-1`. -/
def gapsHours : List LedgerEntry → List ℚ
  | a :: b :: rest =>
    (((b.timestamp - a.timestamp : Int) : ℚ) / 3600) :: gapsHours (b :: rest)
  | _ => []

/-- Python `min` over a nonempty list (left-to-right fold; the `[]` case is
never reached by `get_token_history`). -/
def listMin : List ℚ → ℚ
  | [] => 0
  | [x] => x
  | x :: y :: rest => min x (listMin (y :: rest))

/-- Python `max` over a nonempty list. -/
def listMax : List ℚ → ℚ
  | [] => 0
  | [x] => x
  | x :: y :: rest => max x (listMax (y :: rest))

/-- The analytics record built by `get_token_history`. -/
structure TokenStats where
  total_refreshes : Nat
  avg_hours_between : ℚ
  min_hours : ℚ
  max_hours : ℚ
  last_refresh : Option Int
  deriving DecidableEq

/-- The body of `get_token_history` after the `token_refresh` filter:
return `None` when there are no events, compute the adjacent gaps, return
`None` again when the gaps are empty (a single event), else the statistics
record.  The `if intervals else 0` guards of the source's dict literal are
kept verbatim even though they sit in dead positions. -/
def tokenStatsOf (token_events : List LedgerEntry) : Option TokenStats :=
  if token_events = [] then none
  else
    let intervals := gapsHours token_events
    if intervals = [] then none
    else
      some
        { total_refreshes := token_events.length
          avg_hours_between :=
            if intervals = [] then 0
            else (intervals.foldl (· + ·) 0) / (intervals.length : ℚ)
          min_hours := if intervals = [] then 0 else listMin intervals
          max_hours := if intervals = [] then 0 else listMax intervals
          last_refresh :=
            if token_events = [] then none
            else (token_events.getLast?).map (fun l => l.timestamp) }

/-- `change_log.get_token_history()`: filter the last 1000 entries to
`token_refresh` and analyze them. -/
def get_token_history (logs : List LedgerEntry) : Option TokenStats :=
  tokenStatsOf ((get_logs logs 1000).filter (fun l => l.event_type = "token_refresh"))

/-! Section: client.py and main.py — the fetch client and the auto-refresh
cycle

`auto_refresh_loop` iterates the configured channels; per channel it calls
`client.fetch_stream_url` and, on success, `set_cached_url`; its `except`
block only logs a warning and continues.  All ledger writes happen inside
`fetch_stream_url`, which has four distinct paths:
 - no access token configured: `raise HTTPException(500, ...)` BEFORE the
   `try` block — nothing is logged;
 - `client.post` (or anything else inside `try`) raises: the `except` block
   logs one `url_error` with the stringified exception and re-raises;
 - a response arrives with `status_code != 200`: one `url_error` with the
   status and body excerpt is logged, then `raise_for_status()` raises for
   every non-2xx status and the `except` block logs a SECOND `url_error`;
 - a 2xx response whose body parses: one `url_refresh` with the first 200
   characters of the locator is logged and the locator returned.
The outside world of one call is captured by `FetchEnv`; `ts` is the ledger
timestamp and `nowX`/`now` the cache's clock reads for the cycle. -/

/-- What the HTTP layer handed back to `fetch_stream_url`: the status code,
the response body (used in the status-log excerpt), the message of the
`HTTPStatusError` that `raise_for_status()` would raise, and the result of
the `response.json()['Playlist']['Video']['VideoLocations'][0]['Url']`
extraction (the locator, or the message of the exception it raises). -/
structure HttpResponse where
  status_code : Nat
  body : String
  status_error : String
  parsed_url : Except String String

/-- The environment of one `fetch_stream_url` call for one channel. -/
inductive FetchEnv where
  | noToken
  | postError (e : String)
  | response (r : HttpResponse)

/-- `client.fetch_stream_url(channel)`: the returned value (locator or
raised-exception message) paired with the ledger after the call's
`log_change` writes.  The `{status, body[:500]}` details dict of the status
log is abstracted to its body excerpt (details are opaque payloads). -/
def fetch_stream_url (env : FetchEnv) (channel : String) (ts : Int)
    (logs : List LedgerEntry) : Except String String × List LedgerEntry :=
  match env with
  | .noToken =>
    (.error "No ITV access token configured. Please add ITV_ACCESS_TOKEN to your .env file.",
     logs)
  | .postError e =>
    (.error ("Failed to fetch stream URL: " ++ e),
     log_change logs ⟨ts, "url_error", channel, some e⟩)
  | .response r =>
    let logs1 :=
      if r.status_code ≠ 200 then
        log_change logs ⟨ts, "url_error", channel, some (r.body.take 500)⟩
      else logs
    if 200 ≤ r.status_code ∧ r.status_code ≤ 299 then
      match r.parsed_url with
      | .ok url =>
        (.ok url, log_change logs1 ⟨ts, "url_refresh", channel, some (url.take 200)⟩)
      | .error e =>
        (.error ("Failed to fetch stream URL: " ++ e),
         log_change logs1 ⟨ts, "url_error", channel, some e⟩)
    else
      (.error ("Failed to fetch stream URL: " ++ r.status_error),
       log_change logs1 ⟨ts, "url_error", channel, some r.status_error⟩)

/-- The value component of `fetch_stream_url`, by environment. -/
def fetch_result (env : FetchEnv) : Except String String :=
  match env with
  | .noToken =>
    .error "No ITV access token configured. Please add ITV_ACCESS_TOKEN to your .env file."
  | .postError e => .error ("Failed to fetch stream URL: " ++ e)
  | .response r =>
    if 200 ≤ r.status_code ∧ r.status_code ≤ 299 then
      match r.parsed_url with
      | .ok url => .ok url
      | .error e => .error ("Failed to fetch stream URL: " ++ e)
    else .error ("Failed to fetch stream URL: " ++ r.status_error)

/-- The ledger entries one `fetch_stream_url` call appends, in order. -/
def fetch_events (env : FetchEnv) (channel : String) (ts : Int) : List LedgerEntry :=
  match env with
  | .noToken => []
  | .postError e => [⟨ts, "url_error", channel, some e⟩]
  | .response r =>
    (if r.status_code ≠ 200 then
      [⟨ts, "url_error", channel, some (r.body.take 500)⟩]
    else []) ++
    (if 200 ≤ r.status_code ∧ r.status_code ≤ 299 then
      match r.parsed_url with
      | .ok url => [⟨ts, "url_refresh", channel, some (url.take 200)⟩]
      | .error e => [⟨ts, "url_error", channel, some e⟩]
    else [⟨ts, "url_error", channel, some r.status_error⟩])

/-- Combined cache-plus-ledger state touched by one refresh cycle. -/
structure SysState where
  cache : CacheState
  ledger : List LedgerEntry

/-- One channel step of `auto_refresh_loop`'s `for` body: fetch, then on
success install the locator; on a raise leave the cache alone (the ledger
already holds whatever the client logged). -/
def refresh_channel (env : String → FetchEnv) (ts nowX now : Int)
    (s : SysState) (c : String) : SysState :=
  match fetch_stream_url (env c) c ts s.ledger with
  | (Except.ok url, logs2) =>
    { cache := set_cached_url s.cache c url nowX now, ledger := logs2 }
  | (Except.error _, logs2) =>
    { cache := s.cache, ledger := logs2 }

/-- One full pass of `auto_refresh_loop` over the channel list. -/
def auto_refresh_cycle (env : String → FetchEnv) (ts nowX now : Int)
    (s : SysState) (channels : List String) : SysState :=
  channels.foldl (refresh_channel env ts nowX now) s

/-! Section: dashboard.py — link history tracker -/

/-- One element of a channel's `link_history` list. -/
structure HistoryRecord where
  url : String
  timestamp : Int
  deriving DecidableEq

/-- The module-level `latest_links` and `link_history` dicts. -/
structure DashState where
  latest_links : String → Option String
  link_history : String → List HistoryRecord

/-- Both dicts start empty. -/
def initDash : DashState := ⟨fun _ => none, fun _ => []⟩

/-- `dashboard.record_link(channel, new_url)`: compare against
`latest_links.get(channel)` (`None` compares unequal to every string) and,
only when different, update `latest_links` and append to the channel's
history with the current local timestamp `ts`. -/
def record_link (s : DashState) (channel new_url : String) (ts : Int) : DashState :=
  let current_url := s.latest_links channel
  if current_url ≠ some new_url then
    { latest_links := fun c => if c = channel then some new_url else s.latest_links c
      link_history := fun c =>
        if c = channel then s.link_history c ++ [⟨new_url, ts⟩] else s.link_history c }
  else s

/-- The tracker's invariant: a channel's tracked latest locator is exactly
the locator of the last record of its history (both absent when the history
is empty). -/
def DashInv (s : DashState) : Prop :=
  ∀ c, s.latest_links c = ((s.link_history c).getLast?).map (fun r => r.url)

/-- No two consecutive records of a history share a locator. -/
def NoConsecDup (l : List HistoryRecord) : Prop :=
  l.Chain' (fun a b => a.url ≠ b.url)

/-! Section: Helper lemmas: the regex search -/

/-- `findExp` fails exactly when no position of the text matches the pattern. -/
theorem findExp_eq_none_iff (l : List Char) :
    findExp l = none ↔ ∀ i, headExpMatch (l.drop i) = none := by
  induction l with
  | nil => simp [findExp, headExpMatch]
  | cons c cs ih =>
    cases h : headExpMatch (c :: cs) with
    | some t =>
      simp only [findExp, h]
      constructor
      · intro hcontra; exact absurd hcontra (by simp)
      · intro hall
        have := hall 0
        rw [List.drop_zero, h] at this
        exact absurd this (by simp)
    | none =>
      simp only [findExp, h]
      rw [ih]
      constructor
      · intro hall i
        cases i with
        | zero => rw [List.drop_zero]; exact h
        | succ j => rw [List.drop_succ_cons]; exact hall j
      · intro hall j
        have := hall (j + 1)
        rwa [List.drop_succ_cons] at this

/-- `findExp` returns the capture of the leftmost matching position. -/
theorem findExp_eq_some_of_first (l : List Char) :
    ∀ (i : Nat) (t : List Char), headExpMatch (l.drop i) = some t →
      (∀ j, j < i → headExpMatch (l.drop j) = none) →
      findExp l = some (digitsVal (leadingDigits t)) := by
  induction l with
  | nil =>
    intro i t ht _
    rw [List.drop_nil] at ht
    exact absurd ht (by simp [headExpMatch])
  | cons c cs ih =>
    intro i t ht hmin
    cases i with
    | zero =>
      rw [List.drop_zero] at ht
      simp only [findExp, ht]
    | succ j =>
      have h0 : headExpMatch (c :: cs) = none := by
        have := hmin 0 (Nat.succ_pos j)
        rwa [List.drop_zero] at this
      rw [List.drop_succ_cons] at ht
      simp only [findExp, h0]
      exact ih j t ht (fun k hk => by
        have := hmin (k + 1) (Nat.succ_lt_succ hk)
        rwa [List.drop_succ_cons] at this)

/-! Section: Claim theorems -/

/-- Claim C1: after `set(c, u)` the entry's `requestCount` is 0 and the cached
locator/expiry/validity are those computed at set-time; `get(c)` returns `u`
at every instant `now' < expiry` while bumping `requestCount` to 1, returns
absent (state untouched) at every instant `now' ≥ expiry`; and, in general,
every successful `get` increments the entry's `requestCount` by exactly 1. -/
theorem C1_cache_set_get (s : CacheState) (channel url : String) (nowX now : Int) :
    (set_cached_url s channel url nowX now channel =
       some ⟨url, extract_expiry url nowX, extract_expiry url nowX - now, 0⟩) ∧
    (∀ now', now' < extract_expiry url nowX →
      (get_cached_url (set_cached_url s channel url nowX now) channel now').1 = some url ∧
      (get_cached_url (set_cached_url s channel url nowX now) channel now').2 channel =
        some ⟨url, extract_expiry url nowX, extract_expiry url nowX - now, 1⟩) ∧
    (∀ now', extract_expiry url nowX ≤ now' →
      get_cached_url (set_cached_url s channel url nowX now) channel now' =
        (none, set_cached_url s channel url nowX now)) ∧
    (∀ (t : CacheState) (c : String) (n : Int) (r : String),
      (get_cached_url t c n).1 = some r →
      ∃ e, t c = some e ∧ r = e.url ∧
        (get_cached_url t c n).2 c = some { e with requests := e.requests + 1 }) := by
  refine ⟨by simp [set_cached_url], ?_, ?_, ?_⟩
  · intro now' h
    have hentry : set_cached_url s channel url nowX now channel =
        some ⟨url, extract_expiry url nowX, extract_expiry url nowX - now, 0⟩ := by
      simp [set_cached_url]
    constructor
    · simp [get_cached_url, hentry, h]
    · simp [get_cached_url, hentry, h]
  · intro now' h
    have hentry : set_cached_url s channel url nowX now channel =
        some ⟨url, extract_expiry url nowX, extract_expiry url nowX - now, 0⟩ := by
      simp [set_cached_url]
    simp [get_cached_url, hentry, not_lt.mpr h]
  · intro t c n r hget
    match hentry : t c with
    | some e =>
      by_cases hlt : n < e.expiry
      · refine ⟨e, rfl, ?_, ?_⟩
        · simp [get_cached_url, hentry, hlt] at hget
          exact hget.symm
        · simp [get_cached_url, hentry, hlt]
      · simp [get_cached_url, hentry, hlt] at hget
    | none => simp [get_cached_url, hentry] at hget

/-- Witness for C1 at a concrete input: a set with an explicit expiry of 100
followed by a get at instant 70 returns the cached locator. -/
theorem C1_cache_set_get_witness :
    (get_cached_url (set_cached_url (fun _ => none) "ITV" "http://x?exp=100" 0 50) "ITV" 70).1 =
      some "http://x?exp=100" :=
  ((C1_cache_set_get (fun _ => none) "ITV" "http://x?exp=100" 0 50).2.1 70 (by decide)).1

/-- Claim C7: the intended `clear()` (modelled, since `reload_token`'s
`from cache import CACHE` references a name `cache.py` never defines) drops
every entry, after which `get` returns absent for every channel at every
instant, leaving the cleared state untouched. -/
theorem C7_clear_then_get_absent (s : CacheState) (c : String) (now : Int) :
    get_cached_url (cache_clear s) c now = (none, cache_clear s) := by
  simp [get_cached_url, cache_clear]

/-- Claim C9: `set` never validates freshness: installing a locator whose embedded
`exp` value `n` satisfies `n ≤ now` succeeds, leaves a zero-or-negative
`validity`, makes every subsequent `get` (at any instant `≥ now`) return
absent without error, and a later `set` of a locator with a future expiry
makes `get` return that locator again. -/
theorem C9_stale_set_accepted (s : CacheState) (c u : String) (n : Nat) (nowX now : Int)
    (hfind : findExp u.toList = some n) (hpast : (n : Int) ≤ now) :
    set_cached_url s c u nowX now c = some ⟨u, (n : Int), (n : Int) - now, 0⟩ ∧
    ((n : Int) - now ≤ 0) ∧
    (∀ now', now ≤ now' →
      get_cached_url (set_cached_url s c u nowX now) c now' =
        (none, set_cached_url s c u nowX now)) ∧
    (∀ (u' : String) (m : Nat) (nowX' now2 now3 : Int),
      findExp u'.toList = some m → now3 < (m : Int) →
      (get_cached_url (set_cached_url (set_cached_url s c u nowX now) c u' nowX' now2) c now3).1 =
        some u') := by
  have hfindd : findExp u.data = some n := hfind
  have hex : extract_expiry u nowX = (n : Int) := by simp [extract_expiry, hfindd]
  have hentry : set_cached_url s c u nowX now c = some ⟨u, (n : Int), (n : Int) - now, 0⟩ := by
    simp [set_cached_url, hex]
  refine ⟨hentry, by omega, ?_, ?_⟩
  · intro now' h
    have : ¬ now' < (n : Int) := by omega
    simp [get_cached_url, hentry, this]
  · intro u' m nowX' now2 now3 hfind' hfut
    have hfindd' : findExp u'.data = some m := hfind'
    have hex' : extract_expiry u' nowX' = (m : Int) := by simp [extract_expiry, hfindd']
    have hentry' : set_cached_url (set_cached_url s c u nowX now) c u' nowX' now2 c =
        some ⟨u', (m : Int), (m : Int) - now2, 0⟩ := by
      simp [set_cached_url, hex']
    simp [get_cached_url, hentry', hfut]

/-- Witness for C9 at a concrete input: a locator carrying `exp=10` set at
instant 50 yields a dead entry whose reads miss, and a later set with
`exp=100` is served again at instant 60. -/
theorem C9_stale_set_accepted_witness :
    (get_cached_url (set_cached_url (fun _ => none) "ITV" "u?exp=10" 0 50) "ITV" 60).1 = none ∧
    (get_cached_url (set_cached_url (set_cached_url (fun _ => none) "ITV" "u?exp=10" 0 50)
        "ITV" "u?exp=100" 0 55) "ITV" 60).1 = some "u?exp=100" := by
  have h := C9_stale_set_accepted (fun _ => none) "ITV" "u?exp=10" 10 0 50 (by decide) (by decide)
  exact ⟨by rw [(h.2.2.1 60 (by decide))], h.2.2.2 "u?exp=100" 100 0 55 60 (by decide) (by decide)⟩

/-- Claim C6 (amended): `extract_expiry` always produces a value; when no position
of the locator matches `[?&]exp=` followed by a digit it returns `now + 3600`,
and when some position matches, the result is the integer value of the
maximal digit run at the leftmost such position — the digits are taken even
when non-digit characters follow inside the parameter value. -/
theorem C6_extract_expiry_amended (url : String) (now : Int) :
    ((∀ i, headExpMatch (url.toList.drop i) = none) →
      extract_expiry url now = now + 3600) ∧
    (∀ (i : Nat) (t : List Char), headExpMatch (url.toList.drop i) = some t →
      (∀ j, j < i → headExpMatch (url.toList.drop j) = none) →
      extract_expiry url now = (digitsVal (leadingDigits t) : Int)) := by
  constructor
  · intro h
    have hnone : findExp url.toList = none := (findExp_eq_none_iff _).2 h
    have : findExp url.data = none := hnone
    simp [extract_expiry, this]
  · intro i t ht hmin
    have hsome := findExp_eq_some_of_first url.toList i t ht hmin
    have : findExp url.data = some (digitsVal (leadingDigits t)) := hsome
    simp [extract_expiry, this]

/-- Witness for C6 at a concrete input: `"http://x?exp=12ab"` matches at
position 8 and nowhere earlier, and the extractor returns 12. -/
theorem C6_extract_expiry_amended_witness :
    extract_expiry "http://x?exp=12ab" 0 = 12 :=
  ((C6_extract_expiry_amended "http://x?exp=12ab" 0).2 8 ("12ab".toList) (by decide)
    (by decide)).trans (by decide)

/-- Claim C6 counterexample: the claim says a present-but-malformed `exp`
parameter falls through to `now + 3600`; on `"http://x?exp=12ab"` the `exp`
parameter's value is `"12ab"`, which is not an integer, yet the code returns
12 (the digit run) rather than the default `0 + 3600`. -/
theorem C6_extract_expiry_counterexample :
    expParamValue ("http://x?exp=12ab".toList) = some ("12ab".toList) ∧
    (("12ab".toList).all Char.isDigit) = false ∧
    extract_expiry "http://x?exp=12ab" 0 = 12 ∧
    (12 : Int) ≠ 0 + 3600 := by decide

/-! Section: Helper lemmas: the bounded ledger -/

/-- Below capacity, `log_change` is a plain append. -/
theorem log_change_append (logs : List LedgerEntry) (e : LedgerEntry)
    (h : logs.length < 1000) : log_change logs e = logs ++ [e] := by
  have hnot : ¬ 1000 < (logs ++ [e]).length := by simp; omega
  show (if 1000 < (logs ++ [e]).length then
      (logs ++ [e]).drop ((logs ++ [e]).length - 1000) else logs ++ [e]) = logs ++ [e]
  rw [if_neg hnot]

/-- At capacity, `log_change` appends and drops the single oldest entry. -/
theorem log_change_full (logs : List LedgerEntry) (e : LedgerEntry)
    (h : logs.length = 1000) : log_change logs e = (logs ++ [e]).drop 1 := by
  have hlt : 1000 < (logs ++ [e]).length := by simp; omega
  have hlen : (logs ++ [e]).length - 1000 = 1 := by simp; omega
  show (if 1000 < (logs ++ [e]).length then
      (logs ++ [e]).drop ((logs ++ [e]).length - 1000) else logs ++ [e]) = (logs ++ [e]).drop 1
  rw [if_pos hlt, hlen]

/-- A fold of `log_change` that never reaches capacity is a plain append. -/
theorem foldl_log_change_no_trunc (es : List LedgerEntry) :
    ∀ acc : List LedgerEntry, acc.length + es.length ≤ 1000 →
      es.foldl log_change acc = acc ++ es := by
  induction es with
  | nil => intro acc _; simp
  | cons e es' ih =>
    intro acc h
    simp only [List.length_cons] at h
    rw [List.foldl_cons, log_change_append acc e (by omega),
      ih (acc ++ [e]) (by simp; omega)]
    simp

/-- Claim C2: a ledger at or below capacity stays at or below capacity through any
append; and appending 1001 entries to an empty ledger leaves exactly the
last 1000 of them — the first (oldest) append is gone whenever it differs
from every later entry, and the most recent append is present. -/
theorem C2_ledger_bounded :
    (∀ (logs : List LedgerEntry) (e : LedgerEntry),
      logs.length ≤ 1000 → (log_change logs e).length ≤ 1000) ∧
    (∀ (e0 : LedgerEntry) (rest : List LedgerEntry),
      rest.length = 1000 → e0 ∉ rest →
      (e0 :: rest).foldl log_change [] = rest ∧
      ((e0 :: rest).foldl log_change []).length = 1000 ∧
      e0 ∉ (e0 :: rest).foldl log_change [] ∧
      (∀ l, rest.getLast? = some l → l ∈ (e0 :: rest).foldl log_change [])) := by
  constructor
  · intro logs e h
    rcases lt_or_eq_of_le h with hlt | heq
    · rw [log_change_append logs e hlt]; simp; omega
    · rw [log_change_full logs e heq]; simp; omega
  · intro e0 rest hlen hmem
    have hne : rest ≠ [] := by intro hc; rw [hc] at hlen; simp at hlen
    have hsplit : rest.dropLast ++ [rest.getLast hne] = rest :=
      List.dropLast_append_getLast hne
    have hdl : rest.dropLast.length = 999 := by
      have := List.length_dropLast rest
      omega
    have hfold : (e0 :: rest).foldl log_change [] = rest := by
      conv_lhs => rw [← hsplit]
      rw [show e0 :: (rest.dropLast ++ [rest.getLast hne]) =
        (e0 :: rest.dropLast) ++ [rest.getLast hne] by simp,
        List.foldl_append]
      rw [foldl_log_change_no_trunc (e0 :: rest.dropLast) [] (by simp; omega)]
      simp only [List.nil_append, List.foldl_cons, List.foldl_nil]
      rw [log_change_full (e0 :: rest.dropLast) (rest.getLast hne) (by simp; omega)]
      simp [hsplit]
    refine ⟨hfold, by rw [hfold]; exact hlen, by rw [hfold]; exact hmem, ?_⟩
    intro l hl
    rw [hfold]
    exact List.mem_of_mem_getLast? hl

/-- Witness for C2 at a concrete input: one entry followed by 1000 copies of
a different entry; after the 1001 appends the ledger is exactly the 1000
copies, so the first append is gone and the newest is present. -/
theorem C2_ledger_bounded_witness :
    ((⟨0, "token_refresh", "ALL", none⟩ ::
        List.replicate 1000 (⟨1, "token_refresh", "ALL", none⟩ : LedgerEntry)).foldl
      log_change []) =
      List.replicate 1000 (⟨1, "token_refresh", "ALL", none⟩ : LedgerEntry) :=
  (C2_ledger_bounded.2 ⟨0, "token_refresh", "ALL", none⟩
    (List.replicate 1000 ⟨1, "token_refresh", "ALL", none⟩)
    (List.length_replicate 1000 _)
    (by
      rw [List.mem_replicate]
      rintro ⟨-, heq⟩
      injection heq with h1 _ _ _
      exact absurd h1 (by decide))).1

/-- With at least two filtered events the statistics record is built. -/
theorem tokenStatsOf_cons_cons (a b : LedgerEntry) (rest : List LedgerEntry) :
    tokenStatsOf (a :: b :: rest) =
      some
        { total_refreshes := (a :: b :: rest).length
          avg_hours_between :=
            ((gapsHours (a :: b :: rest)).foldl (· + ·) 0) /
              ((gapsHours (a :: b :: rest)).length : ℚ)
          min_hours := listMin (gapsHours (a :: b :: rest))
          max_hours := listMax (gapsHours (a :: b :: rest))
          last_refresh := ((a :: b :: rest).getLast?).map (fun l => l.timestamp) } := by
  have hne : (a :: b :: rest : List LedgerEntry) ≠ [] := by simp
  have hgne : gapsHours (a :: b :: rest) ≠ [] := by
    rw [gapsHours]
    simp
  rw [tokenStatsOf]
  simp only [if_neg hne, if_neg hgne]

/-- Claim C4 (amended): `get_token_history` returns absent when the ledger holds
zero `token_refresh` events and ALSO when it holds exactly one (the single
event produces no gaps and the code's `if not intervals` guard returns
`None` before the statistics record is built); a present result requires at
least two events, and then reports their count. -/
theorem C4_token_stats_single_absent (logs : List LedgerEntry) :
    ((get_logs logs 1000).filter (fun l => l.event_type = "token_refresh") = [] →
      get_token_history logs = none) ∧
    (∀ e, (get_logs logs 1000).filter (fun l => l.event_type = "token_refresh") = [e] →
      get_token_history logs = none) ∧
    (∀ (a b : LedgerEntry) (rest : List LedgerEntry),
      (get_logs logs 1000).filter (fun l => l.event_type = "token_refresh") = a :: b :: rest →
      ∃ st, get_token_history logs = some st ∧
        st.total_refreshes = (a :: b :: rest).length) := by
  refine ⟨?_, ?_, ?_⟩
  · intro h
    rw [get_token_history, h]
    rfl
  · intro e h
    rw [get_token_history, h]
    simp [tokenStatsOf, gapsHours]
  · intro a b rest h
    rw [get_token_history, h, tokenStatsOf_cons_cons]
    exact ⟨_, rfl, rfl⟩

/-- Witness for C4 at a concrete input: a ledger holding exactly one
`token_refresh` entry yields an absent analytics result. -/
theorem C4_token_stats_single_absent_witness :
    get_token_history [⟨0, "token_refresh", "ALL", none⟩] = none :=
  (C4_token_stats_single_absent [⟨0, "token_refresh", "ALL", none⟩]).2.1
    ⟨0, "token_refresh", "ALL", none⟩ (by decide)

/-- Claim C4 counterexample: the claim says one `token_refresh` event yields a
present result with `count = 1` and zero gap statistics; the code returns
`None` on a one-event ledger. -/
theorem C4_token_stats_counterexample :
    get_token_history [⟨0, "token_refresh", "ALL", none⟩] = none ∧
    (((get_logs [⟨0, "token_refresh", "ALL", none⟩] 1000).filter
        (fun l => l.event_type = "token_refresh")).length = 1) ∧
    (∀ st : TokenStats, (none : Option TokenStats) ≠ some st) := by
  refine ⟨by decide, by decide, fun st h => Option.noConfusion h⟩

/-- Claim C5 (amended): on exactly three `token_refresh` events at `t`, `t + 2h`
and `t + 5h` the analytics report `count = 3`, mean gap 2.5 hours (the
adjacent gaps are 2 and 3), min gap 2, max gap 3, and the last timestamp. -/
theorem C5_three_event_stats (t : Int) (ch : String) (d1 d2 d3 : Option String) :
    get_token_history
      [⟨t, "token_refresh", ch, d1⟩, ⟨t + 7200, "token_refresh", ch, d2⟩,
       ⟨t + 18000, "token_refresh", ch, d3⟩] =
      some ⟨3, 5/2, 2, 3, some (t + 18000)⟩ := by
  have hgaps : gapsHours
      [⟨t, "token_refresh", ch, d1⟩, ⟨t + 7200, "token_refresh", ch, d2⟩,
       ⟨t + 18000, "token_refresh", ch, d3⟩] = [2, 3] := by
    simp only [gapsHours]
    rw [show t + 7200 - t = (7200 : Int) by ring,
      show t + 18000 - (t + 7200) = (10800 : Int) by ring]
    norm_num
  have hlogs : get_logs
      [⟨t, "token_refresh", ch, d1⟩, ⟨t + 7200, "token_refresh", ch, d2⟩,
       ⟨t + 18000, "token_refresh", ch, d3⟩] 1000 =
      [⟨t, "token_refresh", ch, d1⟩, ⟨t + 7200, "token_refresh", ch, d2⟩,
       ⟨t + 18000, "token_refresh", ch, d3⟩] := by
    rw [get_logs, if_neg (by norm_num)]
    norm_num
  have hfilter :
      ([⟨t, "token_refresh", ch, d1⟩, ⟨t + 7200, "token_refresh", ch, d2⟩,
        ⟨t + 18000, "token_refresh", ch, d3⟩] : List LedgerEntry).filter
        (fun l => l.event_type = "token_refresh") =
      [⟨t, "token_refresh", ch, d1⟩, ⟨t + 7200, "token_refresh", ch, d2⟩,
       ⟨t + 18000, "token_refresh", ch, d3⟩] := by
    simp
  rw [get_token_history, hlogs, hfilter, tokenStatsOf_cons_cons, hgaps]
  simp only [listMin, listMax, List.length_cons, List.length_nil, List.foldl_cons,
    List.foldl_nil, List.getLast?_cons_cons, List.getLast?_singleton, Option.map_some',
    TokenStats.mk.injEq]
  norm_num

/-- Claim C5 counterexample: on events at `t = 0`, `t + 2h = 7200`,
`t + 5h = 18000` the adjacent gaps are 2 and 3 hours and the code reports a
mean of 2.5 — not the 3.5 the claim states. -/
theorem C5_three_event_stats_counterexample :
    get_token_history
      [⟨0, "token_refresh", "ALL", none⟩, ⟨7200, "token_refresh", "ALL", none⟩,
       ⟨18000, "token_refresh", "ALL", none⟩] =
      some ⟨3, 5/2, 2, 3, some 18000⟩ ∧ (5/2 : ℚ) ≠ 7/2 := by
  refine ⟨?_, by norm_num⟩
  have hgaps : gapsHours
      [⟨0, "token_refresh", "ALL", none⟩, ⟨7200, "token_refresh", "ALL", none⟩,
       ⟨18000, "token_refresh", "ALL", none⟩] = [2, 3] := by
    simp only [gapsHours]
    norm_num
  have hlogs : get_logs
      [⟨0, "token_refresh", "ALL", none⟩, ⟨7200, "token_refresh", "ALL", none⟩,
       ⟨18000, "token_refresh", "ALL", none⟩] 1000 =
      [⟨0, "token_refresh", "ALL", none⟩, ⟨7200, "token_refresh", "ALL", none⟩,
       ⟨18000, "token_refresh", "ALL", none⟩] := by
    rw [get_logs, if_neg (by norm_num)]
    norm_num
  have hfilter :
      ([⟨0, "token_refresh", "ALL", none⟩, ⟨7200, "token_refresh", "ALL", none⟩,
        ⟨18000, "token_refresh", "ALL", none⟩] : List LedgerEntry).filter
        (fun l => l.event_type = "token_refresh") =
      [⟨0, "token_refresh", "ALL", none⟩, ⟨7200, "token_refresh", "ALL", none⟩,
       ⟨18000, "token_refresh", "ALL", none⟩] := by
    simp
  rw [get_token_history, hlogs, hfilter, tokenStatsOf_cons_cons, hgaps]
  simp only [listMin, listMax, List.length_cons, List.length_nil, List.foldl_cons,
    List.foldl_nil, List.getLast?_cons_cons, List.getLast?_singleton, Option.map_some',
    TokenStats.mk.injEq]
  norm_num

/-! Section: Helper lemmas: the refresh cycle -/

/-- One fetch call equals its value component (`fetch_result`) paired with
the sequential `log_change` of its event list (`fetch_events`). -/
theorem fetch_stream_url_eq (env : FetchEnv) (c : String) (ts : Int)
    (logs : List LedgerEntry) :
    fetch_stream_url env c ts logs =
      (fetch_result env, (fetch_events env c ts).foldl log_change logs) := by
  cases env with
  | noToken => rfl
  | postError e => rfl
  | response r =>
    by_cases h200 : r.status_code ≠ 200
    · by_cases h2xx : 200 ≤ r.status_code ∧ r.status_code ≤ 299
      · cases hp : r.parsed_url with
        | ok u => simp [fetch_stream_url, fetch_result, fetch_events, h200, h2xx, hp]
        | error e => simp [fetch_stream_url, fetch_result, fetch_events, h200, h2xx, hp]
      · simp [fetch_stream_url, fetch_result, fetch_events, h200, h2xx]
    · rw [not_not] at h200
      have h2xx : 200 ≤ r.status_code ∧ r.status_code ≤ 299 := by omega
      cases hp : r.parsed_url with
      | ok u => simp [fetch_stream_url, fetch_result, fetch_events, h200, h2xx, hp]
      | error e => simp [fetch_stream_url, fetch_result, fetch_events, h200, h2xx, hp]

/-- A channel step in explicit form: the cache moves by fetch outcome, the
ledger by the client's logged events. -/
theorem refresh_channel_eq (env : String → FetchEnv) (ts nowX now : Int)
    (s : SysState) (c : String) :
    refresh_channel env ts nowX now s c =
      { cache :=
          match fetch_result (env c) with
          | .ok url => set_cached_url s.cache c url nowX now
          | .error _ => s.cache
        ledger := (fetch_events (env c) c ts).foldl log_change s.ledger } := by
  unfold refresh_channel
  rw [fetch_stream_url_eq]
  cases fetch_result (env c) <;> rfl

/-- A channel step never touches another channel's cache entry. -/
theorem refresh_channel_cache_other (env : String → FetchEnv)
    (ts nowX now : Int) (s : SysState) (c c' : String) (h : c' ≠ c) :
    (refresh_channel env ts nowX now s c).cache c' = s.cache c' := by
  rw [refresh_channel_eq]
  cases fetch_result (env c) with
  | ok u =>
    dsimp only
    simp [set_cached_url, h]
  | error e => rfl

/-- A channel step's ledger effect is the fold of the client's events. -/
theorem refresh_channel_ledger (env : String → FetchEnv) (ts nowX now : Int)
    (s : SysState) (c : String) :
    (refresh_channel env ts nowX now s c).ledger =
      (fetch_events (env c) c ts).foldl log_change s.ledger := by
  rw [refresh_channel_eq]

/-- Folding the cycle over channels not containing `c` leaves `c`'s cache
entry alone. -/
theorem cycle_cache_not_mem (env : String → FetchEnv) (ts nowX now : Int) :
    ∀ (channels : List String) (s : SysState) (c : String), c ∉ channels →
      (auto_refresh_cycle env ts nowX now s channels).cache c = s.cache c := by
  intro channels
  induction channels with
  | nil => intro s c _; rfl
  | cons d ds ih =>
    intro s c hc
    rw [List.mem_cons] at hc
    push_neg at hc
    rw [auto_refresh_cycle, List.foldl_cons]
    rw [show (ds.foldl (refresh_channel env ts nowX now)
        (refresh_channel env ts nowX now s d)) =
      auto_refresh_cycle env ts nowX now (refresh_channel env ts nowX now s d) ds from rfl]
    rw [ih _ c hc.2]
    exact refresh_channel_cache_other env ts nowX now s d c hc.1

/-- While the ledger stays under capacity, one cycle appends exactly the
concatenation of each channel's client-logged events, in channel order. -/
theorem cycle_ledger_eq (env : String → FetchEnv) (ts nowX now : Int) :
    ∀ (channels : List String) (s : SysState),
      s.ledger.length +
        (channels.map (fun c => (fetch_events (env c) c ts).length)).sum ≤ 1000 →
      (auto_refresh_cycle env ts nowX now s channels).ledger =
        s.ledger ++ (channels.map (fun c => fetch_events (env c) c ts)).flatten := by
  intro channels
  induction channels with
  | nil => intro s _; simp [auto_refresh_cycle]
  | cons d ds ih =>
    intro s h
    rw [List.map_cons, List.sum_cons] at h
    rw [auto_refresh_cycle, List.foldl_cons]
    rw [show (ds.foldl (refresh_channel env ts nowX now)
        (refresh_channel env ts nowX now s d)) =
      auto_refresh_cycle env ts nowX now (refresh_channel env ts nowX now s d) ds from rfl]
    have hstep : (refresh_channel env ts nowX now s d).ledger =
        s.ledger ++ fetch_events (env d) d ts := by
      rw [refresh_channel_ledger,
        foldl_log_change_no_trunc (fetch_events (env d) d ts) s.ledger (by omega)]
    rw [ih (refresh_channel env ts nowX now s d) (by rw [hstep]; simp; omega)]
    rw [hstep]
    simp [List.append_assoc]

/-- Claim C3 (amended): within one cycle over distinct channels (ledger
under capacity), the ledger gains exactly the concatenation of each
channel's client-logged events in channel order, and each channel's cache
outcome holds regardless of the other channels' failures: a channel whose
fetch raises keeps its prior cache entry (present or absent) and a channel
whose fetch succeeds has its entry replaced by the fetched locator.  The
events a failing fetch logs depend on the path: none when the
missing-access-token check raises before the request, one `url_error` when
the request itself raises, two `url_error` entries when a response arrives
with a non-2xx status (the non-200 status log plus the exception handler's
log); a 200 response whose body parses logs one `url_refresh`; and every
event a failing fetch logs is a `url_error` for that channel. -/
theorem C3_cycle_error_paths (env : String → FetchEnv) (ts nowX now : Int)
    (s : SysState) (channels : List String)
    (hnodup : channels.Nodup)
    (hcap : s.ledger.length +
      (channels.map (fun c => (fetch_events (env c) c ts).length)).sum ≤ 1000) :
    ((auto_refresh_cycle env ts nowX now s channels).ledger =
      s.ledger ++ (channels.map (fun c => fetch_events (env c) c ts)).flatten) ∧
    (∀ c, c ∈ channels →
      (∀ e, fetch_result (env c) = .error e →
        (auto_refresh_cycle env ts nowX now s channels).cache c = s.cache c) ∧
      (∀ u, fetch_result (env c) = .ok u →
        (auto_refresh_cycle env ts nowX now s channels).cache c =
          some ⟨u, extract_expiry u nowX, extract_expiry u nowX - now, 0⟩)) ∧
    (∀ c : String,
      (fetch_events FetchEnv.noToken c ts = [] ∧
        (fetch_result FetchEnv.noToken).toOption = none) ∧
      (∀ msg, fetch_events (FetchEnv.postError msg) c ts =
          [⟨ts, "url_error", c, some msg⟩] ∧
        (fetch_result (FetchEnv.postError msg)).toOption = none) ∧
      (∀ r : HttpResponse, ¬(200 ≤ r.status_code ∧ r.status_code ≤ 299) →
        fetch_events (FetchEnv.response r) c ts =
          [⟨ts, "url_error", c, some (r.body.take 500)⟩,
           ⟨ts, "url_error", c, some r.status_error⟩] ∧
        (fetch_result (FetchEnv.response r)).toOption = none) ∧
      (∀ (r : HttpResponse) (u : String), r.status_code = 200 → r.parsed_url = .ok u →
        fetch_events (FetchEnv.response r) c ts =
          [⟨ts, "url_refresh", c, some (u.take 200)⟩] ∧
        fetch_result (FetchEnv.response r) = .ok u) ∧
      (∀ e, fetch_result (env c) = .error e →
        ∀ l, l ∈ fetch_events (env c) c ts →
          l.event_type = "url_error" ∧ l.channel = c)) := by
  refine ⟨cycle_ledger_eq env ts nowX now channels s hcap, ?_, ?_⟩
  · intro c hc
    obtain ⟨l1, l2, hsplit⟩ := List.append_of_mem hc
    have hnodup' := hsplit ▸ hnodup
    rw [List.nodup_append] at hnodup'
    obtain ⟨-, hcl2, hdisj⟩ := hnodup'
    have hc_l2 : c ∉ l2 := (List.nodup_cons.1 hcl2).1
    have hc_l1 : c ∉ l1 := fun hmem => hdisj hmem (List.mem_cons_self c l2)
    have hcache : (auto_refresh_cycle env ts nowX now s channels).cache c =
        (refresh_channel env ts nowX now
          (auto_refresh_cycle env ts nowX now s l1) c).cache c := by
      rw [hsplit, auto_refresh_cycle, List.foldl_append, List.foldl_cons]
      exact cycle_cache_not_mem env ts nowX now l2 _ c hc_l2
    have hmid : (auto_refresh_cycle env ts nowX now s l1).cache c = s.cache c :=
      cycle_cache_not_mem env ts nowX now l1 s c hc_l1
    constructor
    · intro e hfe
      rw [hcache, refresh_channel_eq, hfe]
      exact hmid
    · intro u hfu
      rw [hcache, refresh_channel_eq, hfu]
      simp [set_cached_url]
  · intro c
    refine ⟨⟨rfl, rfl⟩, fun msg => ⟨rfl, rfl⟩, ?_, ?_, ?_⟩
    · intro r h2xx
      have h200 : r.status_code ≠ 200 := by
        intro hc
        exact h2xx ⟨by omega, by omega⟩
      constructor
      · simp [fetch_events, h200, h2xx]
      · simp [fetch_result, h2xx, Except.toOption]
    · intro r u h200 hp
      have h2xx : 200 ≤ r.status_code ∧ r.status_code ≤ 299 := by omega
      constructor
      · simp [fetch_events, h200, h2xx, hp]
      · simp [fetch_result, h2xx, hp]
    · intro e hfe l hl
      cases henv : env c with
      | noToken =>
        rw [henv] at hl
        exact absurd hl (List.not_mem_nil l)
      | postError msg =>
        rw [henv] at hl
        rw [show fetch_events (FetchEnv.postError msg) c ts =
          [⟨ts, "url_error", c, some msg⟩] from rfl, List.mem_singleton] at hl
        subst hl
        exact ⟨rfl, rfl⟩
      | response r =>
        rw [henv] at hl hfe
        by_cases h2xx : 200 ≤ r.status_code ∧ r.status_code ≤ 299
        · cases hp : r.parsed_url with
          | ok u =>
            rw [show fetch_result (FetchEnv.response r) =
              (if 200 ≤ r.status_code ∧ r.status_code ≤ 299 then
                match r.parsed_url with
                | .ok url => Except.ok url
                | .error e => Except.error ("Failed to fetch stream URL: " ++ e)
              else Except.error ("Failed to fetch stream URL: " ++ r.status_error))
              from rfl, if_pos h2xx, hp] at hfe
            exact absurd hfe (by simp)
          | error e2 =>
            simp only [fetch_events, hp] at hl
            rw [if_pos h2xx] at hl
            rcases List.mem_append.1 hl with h1 | h1
            · by_cases h200 : r.status_code ≠ 200
              · rw [if_pos h200, List.mem_singleton] at h1
                subst h1
                exact ⟨rfl, rfl⟩
              · rw [if_neg h200] at h1
                exact absurd h1 (List.not_mem_nil l)
            · rw [List.mem_singleton] at h1
              subst h1
              exact ⟨rfl, rfl⟩
        · simp only [fetch_events] at hl
          rw [if_neg h2xx] at hl
          rcases List.mem_append.1 hl with h1 | h1
          · by_cases h200 : r.status_code ≠ 200
            · rw [if_pos h200, List.mem_singleton] at h1
              subst h1
              exact ⟨rfl, rfl⟩
            · rw [if_neg h200] at h1
              exact absurd h1 (List.not_mem_nil l)
          · rw [List.mem_singleton] at h1
            subst h1
            exact ⟨rfl, rfl⟩

set_option maxRecDepth 8000 in
/-- Witness for C3 at a concrete input: over channels `["A", "B", "C"]`
where A gets a 200 response with a locator, B hits the missing-token raise
and C's request raises, the cycle installs A's entry, leaves B and C
absent, and the ledger holds exactly A's `url_refresh` followed by C's
single `url_error` — B contributes nothing. -/
theorem C3_cycle_error_paths_witness :
    (auto_refresh_cycle
        (fun c => if c = "A" then FetchEnv.response ⟨200, "", "", .ok "http://x?exp=9999"⟩
          else if c = "B" then FetchEnv.noToken else FetchEnv.postError "FetchError")
        5 0 0 ⟨fun _ => none, []⟩ ["A", "B", "C"]).cache "A" =
      some ⟨"http://x?exp=9999", 9999, 9999, 0⟩ ∧
    (auto_refresh_cycle
        (fun c => if c = "A" then FetchEnv.response ⟨200, "", "", .ok "http://x?exp=9999"⟩
          else if c = "B" then FetchEnv.noToken else FetchEnv.postError "FetchError")
        5 0 0 ⟨fun _ => none, []⟩ ["A", "B", "C"]).cache "B" = none ∧
    (auto_refresh_cycle
        (fun c => if c = "A" then FetchEnv.response ⟨200, "", "", .ok "http://x?exp=9999"⟩
          else if c = "B" then FetchEnv.noToken else FetchEnv.postError "FetchError")
        5 0 0 ⟨fun _ => none, []⟩ ["A", "B", "C"]).cache "C" = none ∧
    (auto_refresh_cycle
        (fun c => if c = "A" then FetchEnv.response ⟨200, "", "", .ok "http://x?exp=9999"⟩
          else if c = "B" then FetchEnv.noToken else FetchEnv.postError "FetchError")
        5 0 0 ⟨fun _ => none, []⟩ ["A", "B", "C"]).ledger =
      [⟨5, "url_refresh", "A", some ("http://x?exp=9999".take 200)⟩,
       ⟨5, "url_error", "C", some "FetchError"⟩] := by
  have h := C3_cycle_error_paths
    (fun c => if c = "A" then FetchEnv.response ⟨200, "", "", .ok "http://x?exp=9999"⟩
      else if c = "B" then FetchEnv.noToken else FetchEnv.postError "FetchError")
    5 0 0 ⟨fun _ => none, []⟩ ["A", "B", "C"] (by decide) (by decide)
  refine ⟨?_, ?_, ?_, ?_⟩
  · exact ((h.2.1 "A" (by decide)).2 "http://x?exp=9999" rfl).trans (by decide)
  · exact ((h.2.1 "B" (by decide)).1
      "No ITV access token configured. Please add ITV_ACCESS_TOKEN to your .env file." rfl).trans
      rfl
  · exact ((h.2.1 "C" (by decide)).1 ("Failed to fetch stream URL: " ++ "FetchError")
      rfl).trans rfl
  · exact h.1.trans (by decide)

/-- Claim C3 counterexample: the claim says a `url_error` event is appended
for every channel whose fetch raises; on the missing-access-token path the
raise happens before the `try` block, so the fetch fails (its value is an
error) yet the call logs nothing and a cycle over that channel leaves the
ledger empty (the cache is untouched, as claimed). -/
theorem C3_missing_token_counterexample :
    (fetch_stream_url FetchEnv.noToken "B" 5 []).2 = [] ∧
    ((fetch_stream_url FetchEnv.noToken "B" 5 []).1).toOption = none ∧
    (auto_refresh_cycle (fun _ => FetchEnv.noToken) 5 0 0
      ⟨fun _ => none, []⟩ ["B"]).ledger = [] ∧
    (auto_refresh_cycle (fun _ => FetchEnv.noToken) 5 0 0
      ⟨fun _ => none, []⟩ ["B"]).cache "B" = none :=
  ⟨rfl, rfl, rfl, rfl⟩
/-! Section: Helper lemmas: the link history tracker -/

/-- When the locator is new for the channel, `record_link` updates both
maps at that channel. -/
theorem record_link_of_ne (s : DashState) (c u : String) (ts : Int)
    (h : s.latest_links c ≠ some u) :
    record_link s c u ts =
      { latest_links := fun c' => if c' = c then some u else s.latest_links c'
        link_history := fun c' =>
          if c' = c then s.link_history c' ++ [⟨u, ts⟩] else s.link_history c' } := by
  rw [record_link, if_pos h]

/-- When the locator already is the channel's latest, `record_link` is a
no-op. -/
theorem record_link_of_eq (s : DashState) (c u : String) (ts : Int)
    (h : s.latest_links c = some u) : record_link s c u ts = s := by
  rw [record_link, if_neg (by simp [h])]

/-- `record_link` preserves the latest-equals-last-of-history invariant. -/
theorem record_link_inv (s : DashState) (c u : String) (ts : Int) (h : DashInv s) :
    DashInv (record_link s c u ts) := by
  by_cases hc : s.latest_links c ≠ some u
  · rw [record_link_of_ne s c u ts hc]
    intro c'
    by_cases hc' : c' = c
    · subst hc'
      dsimp only
      rw [if_pos rfl, if_pos rfl, List.getLast?_concat]
      rfl
    · dsimp only
      rw [if_neg hc', if_neg hc']
      exact h c'
  · rw [not_not] at hc
    rw [record_link_of_eq s c u ts hc]
    exact h

/-- Claim C10: the empty tracker satisfies the invariant, every `record_link` call
preserves it, any sequence of calls from the initial state satisfies it, and
under it a channel has a tracked latest locator iff its history is
non-empty (in which case the latest equals the last record's locator). -/
theorem C10_latest_matches_history :
    DashInv initDash ∧
    (∀ (s : DashState) (c u : String) (ts : Int), DashInv s →
      DashInv (record_link s c u ts)) ∧
    (∀ calls : List (String × String × Int),
      DashInv (calls.foldl (fun s p => record_link s p.1 p.2.1 p.2.2) initDash)) ∧
    (∀ s : DashState, DashInv s →
      ∀ c, (s.link_history c ≠ [] ↔ (s.latest_links c).isSome)) := by
  have hinit : DashInv initDash := fun _ => rfl
  refine ⟨hinit, fun s c u ts h => record_link_inv s c u ts h, ?_, ?_⟩
  · intro calls
    have : ∀ (cs : List (String × String × Int)) (s : DashState), DashInv s →
        DashInv (cs.foldl (fun s p => record_link s p.1 p.2.1 p.2.2) s) := by
      intro cs
      induction cs with
      | nil => intro s h; exact h
      | cons p ps ih =>
        intro s h
        exact ih _ (record_link_inv s p.1 p.2.1 p.2.2 h)
    exact this calls initDash hinit
  · intro s h c
    rw [h c]
    constructor
    · intro hne
      cases hg : (s.link_history c).getLast? with
      | none =>
        rw [List.getLast?_eq_none_iff] at hg
        exact absurd hg hne
      | some r => rfl
    · intro hs hemp
      rw [hemp] at hs
      simp at hs

/-- Witness for C10 at a concrete input: one record on the empty tracker
keeps the invariant. -/
theorem C10_latest_matches_history_witness :
    DashInv (record_link initDash "ITV" "u" 0) :=
  C10_latest_matches_history.2.1 initDash "ITV" "u" 0 (fun _ => rfl)

/-- Claim C8 (amended): calling `record_link` twice in a row with the same locator
appends exactly one record when the channel's tracked latest locator
differed beforehand, and zero records when the locator was already the
latest; in general, under the tracker invariant, a channel's history never
gains two consecutive records with the same locator. -/
theorem C8_record_link_idempotent :
    (∀ (s : DashState) (c u : String) (ts1 ts2 : Int),
      s.latest_links c ≠ some u →
      (record_link (record_link s c u ts1) c u ts2).link_history c =
        s.link_history c ++ [⟨u, ts1⟩]) ∧
    (∀ (s : DashState) (c u : String) (ts1 ts2 : Int),
      s.latest_links c = some u →
      (record_link (record_link s c u ts1) c u ts2).link_history c =
        s.link_history c) ∧
    (∀ (s : DashState) (c u : String) (ts : Int),
      DashInv s → NoConsecDup (s.link_history c) →
      NoConsecDup ((record_link s c u ts).link_history c)) := by
  refine ⟨?_, ?_, ?_⟩
  · intro s c u ts1 ts2 h
    have h1 : (record_link s c u ts1).latest_links c = some u := by
      rw [record_link_of_ne s c u ts1 h]
      dsimp only
      rw [if_pos rfl]
    rw [record_link_of_eq _ c u ts2 h1, record_link_of_ne s c u ts1 h]
    dsimp only
    rw [if_pos rfl]
  · intro s c u ts1 ts2 h
    rw [record_link_of_eq s c u ts1 h, record_link_of_eq s c u ts2 h]
  · intro s c u ts hinv hnd
    by_cases hc : s.latest_links c ≠ some u
    · rw [record_link_of_ne s c u ts hc]
      dsimp only
      rw [if_pos rfl]
      unfold NoConsecDup at hnd ⊢
      rw [List.chain'_append]
      refine ⟨hnd, List.chain'_singleton _, ?_⟩
      intro x hx y hy
      simp only [List.head?_cons, Option.mem_def, Option.some.injEq] at hy
      have hlast := hinv c
      rw [Option.mem_def] at hx
      rw [hx] at hlast
      simp only [Option.map_some'] at hlast
      intro hxy
      apply hc
      rw [hlast, hxy, ← hy]
    · rw [not_not] at hc
      rw [record_link_of_eq s c u ts hc]
      exact hnd

/-- Witness for C8 at a concrete input: two identical records on the empty
tracker leave exactly one history record. -/
theorem C8_record_link_idempotent_witness :
    (record_link (record_link initDash "ITV" "u" 0) "ITV" "u" 1).link_history "ITV" =
      [⟨"u", 0⟩] :=
  (C8_record_link_idempotent.1 initDash "ITV" "u" 0 1 (by decide)).trans rfl

/-- Claim C8 counterexample: starting from a tracker whose latest locator for
`"ITV"` is already `"u"` (after one record), calling `record_link` twice in
a row with `"u"` appends zero records — the history stays at one record, not
the two the claim's "appends exactly one" predicts for the pair of calls. -/
theorem C8_record_link_counterexample :
    ((record_link (record_link (record_link initDash "ITV" "u" 0) "ITV" "u" 1)
        "ITV" "u" 2).link_history "ITV").length = 1 ∧
    (((record_link initDash "ITV" "u" 0).link_history "ITV").length = 1) := by decide

end ITVStream
